import Mathlib

/-!
Verification of the tool-serving backend of the portfolio repository:
rate limiter (src/mcp-server/src/middleware/rate-limiter.ts), request
dispatch and error normalization (src/mcp-server/src/index.ts,
src/mcp-server/src/utils/error-handler.ts), schema validation
(validateToolInput), analytics (src/mcp-server/src/tools/analytics-tools.ts)
and export formatting (src/mcp-server/src/tools/export-tools.ts).

The TypeScript code is shallowly embedded: JS `Map` objects become
insertion-ordered association lists, module-level mutable state is threaded
explicitly through the functions that touch it, timestamps (`Date.now()`
milliseconds) are `Int`, and JS strings are Lean `String`.
-/

set_option maxRecDepth 16384

namespace PortfolioServer

/-! ## Generic helpers: JS Map as an insertion-ordered association list -/

/-- Lookup in the association-list model of a JS `Map<string, α>`. -/
def mapGet {α : Type} (m : List (String × α)) (k : String) : Option α :=
  match m with
  | [] => none
  | (k₁, v) :: rest => if k₁ = k then some v else mapGet rest k

/-- Update in the association-list model of a JS `Map<string, α>`:
`map.set(k, v)` overwrites an existing binding in place, otherwise appends. -/
def mapSet {α : Type} (m : List (String × α)) (k : String) (v : α) :
    List (String × α) :=
  match m with
  | [] => [(k, v)]
  | (k₁, v₁) :: rest =>
    if k₁ = k then (k₁, v) :: rest else (k₁, v₁) :: mapSet rest k v

theorem mapGet_mapSet_self {α : Type} (m : List (String × α)) (k : String) (v : α) :
    mapGet (mapSet m k v) k = some v := by
  induction m with
  | nil => simp [mapGet, mapSet]
  | cons hd tl ih =>
    obtain ⟨k₁, v₁⟩ := hd
    by_cases h : k₁ = k
    · simp [mapGet, mapSet, h]
    · simp [mapGet, mapSet, h, ih]

/-! ## Rate limiter (rate-limiter.ts) -/

/-- Configuration of the `RateLimiter` class (the
`skipSuccessfulRequests` / `skipFailedRequests` flags are stored by the
constructor but never read by any method, so they are omitted). -/
structure RateLimitConfig where
  windowMs : Int
  maxRequests : Nat
deriving DecidableEq, Repr

/-- One entry of a per-caller request log (interface `RequestInfo`). -/
structure RequestInfo where
  ip : Option String
  userAgent : Option String
  timestamp : Int
deriving DecidableEq, Repr

/-- Result of `RateLimiter.checkLimit` (interface `RateLimitResult`). -/
structure RateLimitResult where
  allowed : Bool
  remaining : Nat
  resetTime : Int
  totalRequests : Nat
deriving DecidableEq, Repr

/-- The `requests` field of the `RateLimiter`: a `Map<string, RequestInfo[]>`. -/
abbrev RateLimiterState := List (String × List RequestInfo)

/-- String literals used when deriving rate-limiter keys. -/
def ipKeyTag : String := "ip:"

def uaKeyTag : String := "ua:"

def anonymousKey : String := "anonymous"

/-- `RateLimiter.generateKey`: IP address first, then user agent, then the
shared anonymous bucket. -/
def generateKey (ip userAgent : Option String) : String :=
  match ip with
  | some i => ipKeyTag ++ i
  | none =>
    match userAgent with
    | some ua => uaKeyTag ++ ua
    | none => anonymousKey

/-- `Math.ceil(a / b)` for an integer `a` and a positive integer `b`
(JS computes the quotient as a float and rounds up). -/
def jsCeilDiv (a b : Int) : Int := -(Int.ediv (-a) b)

/-- `RateLimiter.checkLimit`.  Returns the `RateLimitResult` together with
the `requests` map after the call.  Mirrors the source line by line: prune
the caller's log to timestamps strictly newer than `now - windowMs`, allow
iff the pruned count is below `maxRequests`, and push the current request
(and write the log back) only when allowed.  `remaining` is
`Math.max(0, maxRequests - length)`, which is truncated `Nat` subtraction,
and `resetTime` is `Math.ceil((windowStart + windowMs - now) / 1000)`
exactly as written in the source. -/
def checkLimit (cfg : RateLimitConfig) (st : RateLimiterState)
    (ip userAgent : Option String) (now : Int) :
    RateLimitResult × RateLimiterState :=
  let key := generateKey ip userAgent
  let windowStart := now - cfg.windowMs
  let userRequests := (mapGet st key).getD []
  let pruned := userRequests.filter (fun r => windowStart < r.timestamp)
  if pruned.length < cfg.maxRequests then
    let updated := pruned ++ [⟨ip, userAgent, now⟩]
    (⟨true, cfg.maxRequests - updated.length,
      jsCeilDiv (windowStart + cfg.windowMs - now) 1000,
      updated.length⟩,
     mapSet st key updated)
  else
    (⟨false, cfg.maxRequests - pruned.length,
      jsCeilDiv (windowStart + cfg.windowMs - now) 1000,
      pruned.length⟩,
     st)

/-- The caller's log as pruned at the start of `checkLimit`. -/
def prunedLog (cfg : RateLimitConfig) (st : RateLimiterState)
    (ip userAgent : Option String) (now : Int) : List RequestInfo :=
  ((mapGet st (generateKey ip userAgent)).getD []).filter
    (fun r => now - cfg.windowMs < r.timestamp)

/-- A run of `checkLimit` calls by one caller at the given instants,
threading the limiter state. -/
def runCalls (cfg : RateLimitConfig) (st : RateLimiterState)
    (ip userAgent : Option String) :
    List Int → List RateLimitResult × RateLimiterState
  | [] => ([], st)
  | now :: rest =>
    let step := checkLimit cfg st ip userAgent now
    let next := runCalls cfg step.2 ip userAgent rest
    (step.1 :: next.1, next.2)

/-- The value the spec assigns to `resetTimeSeconds`, stated in the spec's
own words for comparison with the source: the time until the oldest
timestamp in the (pre-prune) window expires, in seconds, clamped to be
nonnegative.  The stored log is append-ordered, so its head is the oldest
entry. -/
def specResetTimeSeconds (windowMs : Int) (log : List RequestInfo) (now : Int) : Int :=
  match log.head? with
  | none => 0
  | some r => max 0 (jsCeilDiv (r.timestamp + windowMs - now) 1000)

/-- Scenario configuration of the spec: `windowMs = 1000`, `maxRequests = 2`. -/
def scenarioCfg : RateLimitConfig := ⟨1000, 2⟩

/-- C1.  Sliding-window admission: for every caller and limiter state, with
`pruned` the caller's log restricted to the trailing window, a call is
allowed and its timestamp appended exactly when `pruned` holds fewer than
`maxRequests` timestamps, and is denied with the state left unchanged once
`pruned` holds at least `maxRequests` timestamps; in the scenario
`windowMs = 1000`, `maxRequests = 2`, three calls at 0, 100, 200 ms yield
allowed, allowed, denied with `remaining = 0` on the second call. -/
theorem checkLimit_sliding_window_admission
    (cfg : RateLimitConfig) (st : RateLimiterState) (ip ua : Option String) (now : Int) :
    ((prunedLog cfg st ip ua now).length < cfg.maxRequests →
       (checkLimit cfg st ip ua now).1.allowed = true ∧
       mapGet (checkLimit cfg st ip ua now).2 (generateKey ip ua) =
         some (prunedLog cfg st ip ua now ++ [⟨ip, ua, now⟩])) ∧
    (cfg.maxRequests ≤ (prunedLog cfg st ip ua now).length →
       (checkLimit cfg st ip ua now).1.allowed = false ∧
       (checkLimit cfg st ip ua now).2 = st) ∧
    ((runCalls scenarioCfg [] (some (String.singleton 'X')) none [0, 100, 200]).1.map
        (fun r => r.allowed) = [true, true, false] ∧
     (runCalls scenarioCfg [] (some (String.singleton 'X')) none [0, 100, 200]).1.map
        (fun r => r.remaining) = [1, 0, 0]) := by
  refine ⟨fun h => ?_, fun h => ?_, by decide⟩
  · simp only [checkLimit, prunedLog] at h ⊢
    simp [h, mapGet_mapSet_self]
  · simp only [checkLimit, prunedLog] at h ⊢
    simp [Nat.not_lt.mpr h]

/-- Witness for C1: the first call of the scenario is admitted and recorded. -/
theorem checkLimit_sliding_window_admission_witness :
    (checkLimit scenarioCfg [] (some (String.singleton 'X')) none 0).1.allowed = true ∧
    mapGet (checkLimit scenarioCfg [] (some (String.singleton 'X')) none 0).2
        (generateKey (some (String.singleton 'X')) none) =
      some (prunedLog scenarioCfg [] (some (String.singleton 'X')) none 0 ++
        [⟨some (String.singleton 'X'), none, 0⟩]) :=
  (checkLimit_sliding_window_admission scenarioCfg [] (some (String.singleton 'X')) none 0).1
    (by decide)

/-- Failing input for C3: one stored timestamp at t = 1000000 with a 5000 ms
window, queried at now = 1000000. -/
def c3Log : List RequestInfo := [⟨some (String.singleton 'X'), none, 1000000⟩]

/-- C3 (code bug).  The source computes
`resetTime = Math.ceil((windowStart + windowMs - now) / 1000)` with
`windowStart = now - windowMs`, an expression that is identically zero, so
`resetTime` is 0 on every call; at the failing input the spec's value —
seconds until the oldest pre-prune timestamp leaves the window — is 5,
which the returned 0 does not equal. -/
theorem checkLimit_resetTime_always_zero :
    (∀ (cfg : RateLimitConfig) (st : RateLimiterState) (ip ua : Option String) (now : Int),
       (checkLimit cfg st ip ua now).1.resetTime = 0) ∧
    (checkLimit ⟨5000, 2⟩ [(ipKeyTag ++ String.singleton 'X', c3Log)]
        (some (String.singleton 'X')) none 1000000).1.resetTime = 0 ∧
    specResetTimeSeconds 5000 c3Log 1000000 = 5 := by
  refine ⟨fun cfg st ip ua now => ?_, by decide, by decide⟩
  have h : now - cfg.windowMs + cfg.windowMs - now = 0 := by ring
  simp only [checkLimit, h]
  split <;> simp [jsCeilDiv] <;> decide

/-! ## Analytics (analytics-tools.ts)

JS strings are modelled as their character sequences (`List Char`): the
library string functions of Lean (`String.splitOn`, `String.take`, …) are
well-founded recursions that concrete evaluation cannot unfold, so the JS
operations `split('.')`, `substring`, `slice` are embedded directly on
`List Char` and converted to `String` only at the boundary. -/

/-- JS `str.split(sep)` for a one-character separator. -/
def splitOnChar (sep : Char) : List Char → List (List Char)
  | [] => [[]]
  | x :: xs =>
    match splitOnChar sep xs with
    | [] => [[x]]
    | g :: gs => if x = sep then [] :: g :: gs else (x :: g) :: gs

/-- Character sequence of the fixed redaction marker `xxxx`. -/
def redactionSuffix : List Char := [Char.ofNat 120, Char.ofNat 120, Char.ofNat 120, Char.ofNat 120]

/-- Helper `anonymizeIP` as a character-sequence transformation: split on
dots; with exactly four fields, rebuild the first three and append `.0`;
otherwise keep the first `floor(length / 2)` characters (JS `substring`
truncates the fractional index `length / 2`) and append the fixed marker
`xxxx`. -/
def anonymizeIPChars (ip : List Char) : List Char :=
  let parts := splitOnChar '.' ip
  if parts.length = 4 then
    parts[0]! ++ '.' :: parts[1]! ++ '.' :: parts[2]! ++ ['.', '0']
  else
    ip.take (ip.length / 2) ++ redactionSuffix

/-- Function `anonymizeIP` of analytics-tools.ts. -/
def anonymizeIP (ip : String) : String := String.mk (anonymizeIPChars ip.data)

/-- Numeric value of an all-digit character sequence, `none` otherwise. -/
def decDigitsVal (l : List Char) : Option Nat :=
  if l ≠ [] ∧ l.all Char.isDigit then
    some (l.foldl (fun n c => 10 * n + (c.toNat - 48)) 0)
  else none

/-- A decimal octet as the claim uses the word: a digit string whose value
is at most 255 (so `"a"` or `"999"` are not octets). -/
def isOctetStr (l : List Char) : Bool :=
  match decDigitsVal l with
  | some n => n ≤ 255
  | none => false

/-- An IPv4 address string in the claim's sense: four dot-separated octets. -/
def isIPv4 (s : String) : Bool :=
  let parts := splitOnChar '.' s.data
  parts.length = 4 && parts.all isOctetStr

/-- Non-IPv4 input on which the claim's second branch fails. -/
def c7Sample : String := "a.b.c.d"

/-- C7 (counterexample).  The string `"a.b.c.d"` is not an IPv4 address
(its fields are not octets), yet `anonymizeIP` does not truncate-and-mark
it as the claim states for every non-IPv4 string: it takes the four-field
branch and returns `"a.b.c.0"` rather than `"a.b" ++ "xxxx"`. -/
theorem anonymizeIP_nonIPv4_counterexample :
    isIPv4 c7Sample = false ∧
    anonymizeIP c7Sample ≠
      String.mk (c7Sample.data.take (c7Sample.data.length / 2) ++ redactionSuffix) := by
  decide

/-- C7 (amended).  The branch condition of `anonymizeIP` is only that the
input splits into exactly four dot-separated fields: every genuine IPv4
address keeps its first three octets and has the last replaced by `0`, but
a non-IPv4 string is truncated to half length with the `xxxx` marker
appended only when it does not split into four fields. -/
theorem anonymizeIP_branches_amended (s : String) :
    (isIPv4 s = true →
       anonymizeIP s =
         String.mk ((splitOnChar '.' s.data)[0]! ++ '.' :: (splitOnChar '.' s.data)[1]! ++
           '.' :: (splitOnChar '.' s.data)[2]! ++ ['.', '0'])) ∧
    ((splitOnChar '.' s.data).length = 4 →
       anonymizeIP s =
         String.mk ((splitOnChar '.' s.data)[0]! ++ '.' :: (splitOnChar '.' s.data)[1]! ++
           '.' :: (splitOnChar '.' s.data)[2]! ++ ['.', '0'])) ∧
    ((splitOnChar '.' s.data).length ≠ 4 →
       anonymizeIP s =
         String.mk (s.data.take (s.data.length / 2) ++ redactionSuffix)) := by
  refine ⟨fun h => ?_, fun h => ?_, fun h => ?_⟩
  · have h4 : (splitOnChar '.' s.data).length = 4 := by
      have h' : (splitOnChar '.' s.data).length = 4 ∧
          ∀ x ∈ splitOnChar '.' s.data, isOctetStr x = true := by
        simpa [isIPv4] using h
      exact h'.1
    simp [anonymizeIP, anonymizeIPChars, h4]
  · simp [anonymizeIP, anonymizeIPChars, h]
  · simp [anonymizeIP, anonymizeIPChars, h]

/-- A genuine IPv4 address for evaluating the amended claim. -/
def c7V4 : String := "1.2.3.4"

/-- A two-field string for evaluating the amended claim's other branch. -/
def c7Half : String := "localhost"

/-- Witness for C7: evaluated on the IPv4 address `1.2.3.4` (last octet
zeroed) and on `"localhost"` (truncated to `"loca"` and marked). -/
theorem anonymizeIP_branches_amended_witness :
    (anonymizeIP c7V4 =
      String.mk ((splitOnChar '.' c7V4.data)[0]! ++ '.' :: (splitOnChar '.' c7V4.data)[1]! ++
        '.' :: (splitOnChar '.' c7V4.data)[2]! ++ ['.', '0'])) ∧
    anonymizeIP c7Half =
      String.mk (c7Half.data.take (c7Half.data.length / 2) ++ redactionSuffix) :=
  ⟨(anonymizeIP_branches_amended c7V4).1 (by decide),
   (anonymizeIP_branches_amended c7Half).2.2 (by decide)⟩

/-- An analytics event as used by the popular-content query (interface
`AnalyticsEvent`; the fields `id`, `userAgent`, `ip`, `referrer` and
`metadata` play no part in `getPopularContent` and are omitted). -/
structure AnalyticsEvent where
  type : String
  resource : String
  resourceId : Option String
  timestamp : Int
deriving DecidableEq, Repr

/-- Keyword literals of the analytics module. -/
def viewKw : String := "view"

def projectKw : String := "project"

def projectsKw : String := "projects"

def skillsKw : String := "skills"

def pagesKw : String := "pages"

def dayKw : String := "day"

def weekKw : String := "week"

def monthKw : String := "month"

def yearKw : String := "year"

def allKw : String := "all"

/-- Start of the analysed time range (`getPopularContent`, the `switch` on
`timeRange`): a trailing duration before `now`, or the epoch
(`new Date(0)`) for any other keyword. -/
def startDateFor (timeRange : String) (now : Int) : Int :=
  if timeRange = dayKw then now - 86400000
  else if timeRange = weekKw then now - 604800000
  else if timeRange = monthKw then now - 2592000000
  else if timeRange = yearKw then now - 31536000000
  else 0

/-- JS `contentType.slice(0, -1)`: drop the final character. -/
def singularOf (contentType : String) : String := String.mk contentType.data.dropLast

/-- The events `getPopularContent` considers: timestamp inside the time
range and `resource` equal to the singular of the content-type keyword. -/
def filteredPopularEvents (events : List AnalyticsEvent) (contentType timeRange : String)
    (now : Int) : List AnalyticsEvent :=
  events.filter (fun e =>
    decide (startDateFor timeRange now ≤ e.timestamp) &&
      e.resource == singularOf contentType)

/-- One step of the interaction tally: JS object property update
`interactions[id] = (interactions[id] || 0) + 1`, with the object's
insertion-ordered keys modelled as an association list (the source's
resource ids are non-index-like strings, for which JS objects preserve
insertion order). -/
def bumpCount : List (String × Nat) → String → List (String × Nat)
  | [], k => [(k, 1)]
  | (k₁, c) :: rest, k =>
    if k₁ = k then (k₁, c + 1) :: rest else (k₁, c) :: bumpCount rest k

/-- Interaction counts per resource id over the filtered events, keyed in
first-occurrence order (events without a `resourceId` are skipped). -/
def interactionCounts (events : List AnalyticsEvent) : List (String × Nat) :=
  events.foldl (fun acc e =>
    match e.resourceId with
    | some rid => bumpCount acc rid
    | none => acc) []

/-- Insertion step of a stable descending sort by count: the new element
goes after every strictly greater count and before equal ones. -/
def insertByCountDesc (x : String × Nat) : List (String × Nat) → List (String × Nat)
  | [] => [x]
  | y :: ys => if x.2 < y.2 then y :: insertByCountDesc x ys else x :: y :: ys

/-- JS `entries.sort(([, a], [, b]) => b - a)`: `Array.prototype.sort` is
stable, and a stable descending-by-count ordering is unique, so it equals
this stable insertion sort. -/
def sortByCountDesc : List (String × Nat) → List (String × Nat)
  | [] => []
  | x :: xs => insertByCountDesc x (sortByCountDesc xs)

/-- One ranked item returned by `getPopularContent`. -/
structure PopularItem where
  resourceId : String
  interactions : Nat
  lastInteraction : Option Int
deriving DecidableEq, Repr

/-- JS `filteredEvents.filter(e => e.resourceId === id).sort((a, b) =>
b.timestamp - a.timestamp)[0]?.timestamp`: the greatest timestamp among the
id's events, if any. -/
def lastInteractionOf (events : List AnalyticsEvent) (rid : String) : Option Int :=
  ((events.filter (fun e => e.resourceId == some rid)).map (fun e => e.timestamp)).max?

/-- Core of the `get_popular_content` handler: filter events, tally
interactions per resource id, sort stably by descending count, truncate to
`limit`, and attach each id's most recent interaction timestamp. -/
def getPopularContent (events : List AnalyticsEvent) (contentType : String) (limit : Nat)
    (timeRange : String) (now : Int) : List PopularItem :=
  let fe := filteredPopularEvents events contentType timeRange now
  ((sortByCountDesc (interactionCounts fe)).take limit).map
    (fun p => ⟨p.1, p.2, lastInteractionOf fe p.1⟩)

/-- The tie order the claim asserts: adjacent items are ranked by strictly
greater count, or by equal count with most-recent interaction descending. -/
def tieOrderByRecencyDesc : List PopularItem → Bool
  | a :: b :: rest =>
    (decide (b.interactions < a.interactions) ||
      (a.interactions == b.interactions &&
        decide ((b.lastInteraction.getD 0) ≤ (a.lastInteraction.getD 0)))) &&
      tieOrderByRecencyDesc (b :: rest)
  | _ => true

theorem mem_insertByCountDesc {x a : String × Nat} {l : List (String × Nat)} :
    a ∈ insertByCountDesc x l ↔ a = x ∨ a ∈ l := by
  induction l with
  | nil => simp [insertByCountDesc]
  | cons y ys ih =>
    by_cases h : x.2 < y.2 <;> simp [insertByCountDesc, h, ih]
    tauto

theorem pairwise_insertByCountDesc {x : String × Nat} {l : List (String × Nat)}
    (h : l.Pairwise (fun a b => b.2 ≤ a.2)) :
    (insertByCountDesc x l).Pairwise (fun a b => b.2 ≤ a.2) := by
  induction l with
  | nil => simp [insertByCountDesc]
  | cons y ys ih =>
    rcases List.pairwise_cons.mp h with ⟨hy, hys⟩
    by_cases hc : x.2 < y.2
    · simp only [insertByCountDesc, if_pos hc]
      refine List.pairwise_cons.mpr ⟨?_, ih hys⟩
      intro a ha
      rcases mem_insertByCountDesc.mp ha with rfl | ha'
      · omega
      · exact hy a ha'
    · simp only [insertByCountDesc, if_neg hc]
      refine List.pairwise_cons.mpr ⟨?_, h⟩
      intro a ha
      rcases List.mem_cons.mp ha with rfl | ha'
      · omega
      · have := hy a ha'
        omega

theorem sortByCountDesc_pairwise (l : List (String × Nat)) :
    (sortByCountDesc l).Pairwise (fun a b => b.2 ≤ a.2) := by
  induction l with
  | nil => simp [sortByCountDesc]
  | cons x xs ih => exact pairwise_insertByCountDesc ih

theorem filter_insertByCountDesc (x : String × Nat) (l : List (String × Nat)) (c : Nat) :
    (insertByCountDesc x l).filter (fun p => decide (p.2 = c)) =
      if x.2 = c then x :: l.filter (fun p => decide (p.2 = c))
      else l.filter (fun p => decide (p.2 = c)) := by
  induction l with
  | nil => by_cases hx : x.2 = c <;> simp [insertByCountDesc, List.filter, hx]
  | cons y ys ih =>
    by_cases hc : x.2 < y.2
    · rw [insertByCountDesc, if_pos hc, List.filter_cons]
      simp only [ih]
      by_cases hy : y.2 = c
      · have hx : ¬x.2 = c := by omega
        simp [hy, hx]
      · by_cases hx : x.2 = c <;> simp [hy, hx]
    · rw [insertByCountDesc, if_neg hc]
      by_cases hx : x.2 = c <;> by_cases hy : y.2 = c <;>
        simp [List.filter_cons, hx, hy]

theorem filter_sortByCountDesc (l : List (String × Nat)) (c : Nat) :
    (sortByCountDesc l).filter (fun p => decide (p.2 = c)) =
      l.filter (fun p => decide (p.2 = c)) := by
  induction l with
  | nil => simp [sortByCountDesc]
  | cons x xs ih =>
    rw [sortByCountDesc, filter_insertByCountDesc, ih]
    by_cases hx : x.2 = c <;> simp [List.filter_cons, hx]

/-- Resource ids of the scenario. -/
def p1Id : String := "p1"

def p2Id : String := "p2"

/-- Two single-view events for distinct resources: a tie in counts where
the later-viewed resource has the more recent interaction. -/
def c8TieEvents : List AnalyticsEvent :=
  [⟨viewKw, projectKw, some p1Id, 1⟩, ⟨viewKw, projectKw, some p2Id, 2⟩]

/-- C8 (counterexample).  With one view of `p1` at t=1 and one of `p2` at
t=2, the popular-content query returns `p1` before `p2` (first-occurrence
order), although `p2` has the more recent interaction, so equal counts are
not ordered by most-recent timestamp descending as the claim states. -/
theorem popular_tie_order_counterexample :
    getPopularContent c8TieEvents projectsKw 10 allKw 2 =
      [⟨p1Id, 1, some 1⟩, ⟨p2Id, 1, some 2⟩] ∧
    tieOrderByRecencyDesc (getPopularContent c8TieEvents projectsKw 10 allKw 2) = false := by
  decide

/-- The scenario events: three views of `p1`, then one of `p2`. -/
def c8ScenarioEvents : List AnalyticsEvent :=
  [⟨viewKw, projectKw, some p1Id, 1⟩, ⟨viewKw, projectKw, some p1Id, 2⟩,
   ⟨viewKw, projectKw, some p1Id, 3⟩, ⟨viewKw, projectKw, some p2Id, 4⟩]

/-- C8 (amended).  Popular-content results are sorted descending by
interaction count, and items with equal counts keep the stable relative
order of the first occurrence of their resource id among the filtered
events (not most-recent-timestamp order); the scenario of three views for
`p1` and one for `p2` ranks `p1` above `p2` with counts 3 and 1. -/
theorem popular_sorted_stable_amended :
    (∀ (events : List AnalyticsEvent) (contentType timeRange : String) (limit : Nat) (now : Int),
       (getPopularContent events contentType limit timeRange now).Pairwise
         (fun a b => b.interactions ≤ a.interactions)) ∧
    (∀ (events : List AnalyticsEvent) (contentType timeRange : String) (now : Int) (c : Nat),
       (sortByCountDesc
           (interactionCounts (filteredPopularEvents events contentType timeRange now))).filter
           (fun p => decide (p.2 = c)) =
         (interactionCounts (filteredPopularEvents events contentType timeRange now)).filter
           (fun p => decide (p.2 = c))) ∧
    getPopularContent c8ScenarioEvents projectsKw 10 allKw 4 =
      [⟨p1Id, 3, some 3⟩, ⟨p2Id, 1, some 4⟩] := by
  refine ⟨fun events contentType timeRange limit now => ?_,
    fun events contentType timeRange now c => filter_sortByCountDesc _ c, by decide⟩
  have hs := sortByCountDesc_pairwise
    (interactionCounts (filteredPopularEvents events contentType timeRange now))
  have ht := hs.sublist (List.take_sublist limit _)
  exact ht.map _ (fun a b hab => hab)

/-! ## Schema validation (utils/validation.ts, `validateToolInput`)

Argument maps are JSON values.  The number model is restricted to
integral JS numbers — the only numbers the registered schemas' constraints
and the claims exercise — so the `z.number().int()` fractional-part check
of `jsonSchemaToZod` never fires and is not represented.  No registered
tool schema declares `type: 'array'`, a `pattern`, `minLength`,
`maxLength`, `minItems` or `maxItems`, so the embedded schema language is
the fragment `jsonSchemaToZod` is actually applied to: objects of
string/number/boolean/object properties with `enum`, `minimum`, `maximum`,
`required` and `default`. -/

/-- A JSON value (tool-call argument maps and their members). -/
inductive JsonValue where
  | null
  | bool (b : Bool)
  | num (n : Int)
  | str (s : String)
  | obj (fields : List (String × JsonValue))

mutual
/-- The schema fragment interpreted by `jsonSchemaToZod`, as a mutual
inductive so that validation is structurally recursive.  An object
property carries its sub-schema and its declared `default`, and the
object's `required` list is kept separately, as in JSON Schema. -/
inductive Schema where
  | sObject (props : PropList) (required : List String)
  | sString (enumVals : Option (List String))
  | sNumber (isInt : Bool) (minimum maximum : Option Int)
  | sBoolean

/-- Declared properties of an object schema, in declaration order. -/
inductive PropList where
  | nil
  | cons (key : String) (sub : Schema) (dflt : Option JsonValue) (rest : PropList)
end

/-- Separator used when joining a Zod issue path. -/
def dotSep : String := "."

/-- One Zod issue: a property path and a message.  Formatted by
`validateToolInput` as `path.join('.') + ': ' + message`. -/
structure Issue where
  path : List String
  message : String
deriving DecidableEq, Repr

/-- JS type names, as reported in Zod invalid-type messages. -/
def typeName : JsonValue → String
  | .null => "null"
  | .bool _ => "boolean"
  | .num _ => "number"
  | .str _ => "string"
  | .obj _ => "object"

def emptyStr : String := ""

/-- Zod default message texts (paraphrased where Zod interpolates the
received value; no claim depends on the exact wording). -/
def msgRequired : String := "Required"

def msgInvalidEnum : String := "Invalid enum value"

def msgExpected (expected : String) (v : JsonValue) : String :=
  "Expected " ++ expected ++ ", received " ++ typeName v

def stringWord : String := "string"

def numberWord : String := "number"

def booleanWord : String := "boolean"

def objectWord : String := "object"

def msgNumMin (m : Int) : String :=
  "Number must be greater than or equal to " ++ toString m

def msgNumMax (m : Int) : String :=
  "Number must be less than or equal to " ++ toString m

mutual
/-- Validation of a value against a schema with issue accumulation,
mirroring `zodSchema.safeParse`: enum takes precedence over other string
checks (`jsonSchemaToZod` returns `z.enum` before applying them), number
bound checks accumulate, and object validation checks every declared
property — reporting `Required` for a missing property that is in
`required` and has no declared default — while unknown keys are ignored.
The `path` argument is the position of `v`, prefixed onto every issue. -/
def validateValue (s : Schema) (v : JsonValue) (path : List String) : List Issue :=
  match s with
  | .sBoolean =>
    match v with
    | .bool _ => []
    | _ => [⟨path, msgExpected booleanWord v⟩]
  | .sString enumVals =>
    match v with
    | .str str =>
      match enumVals with
      | some lits => if lits.contains str then [] else [⟨path, msgInvalidEnum⟩]
      | none => []
    | _ => [⟨path, msgExpected stringWord v⟩]
  | .sNumber _ minimum maximum =>
    match v with
    | .num n =>
      (match minimum with
       | some m => if n < m then [⟨path, msgNumMin m⟩] else []
       | none => []) ++
      (match maximum with
       | some m => if m < n then [⟨path, msgNumMax m⟩] else []
       | none => [])
    | _ => [⟨path, msgExpected numberWord v⟩]
  | .sObject props required =>
    match v with
    | .obj fields => validateProps props required fields path
    | _ => [⟨path, msgExpected objectWord v⟩]

/-- Issues of the declared properties of an object schema, in declaration
order, against the supplied fields. -/
def validateProps (props : PropList) (required : List String)
    (fields : List (String × JsonValue)) (path : List String) : List Issue :=
  match props with
  | .nil => []
  | .cons key sub dflt rest =>
    (match mapGet fields key with
     | some v => validateValue sub v (path ++ [key])
     | none =>
       if dflt.isSome then []
       else if required.contains key then [⟨path ++ [key], msgRequired⟩]
       else []) ++ validateProps rest required fields path
end

/-- Interface `ValidationResult` (the coerced `data` is dropped: the
dispatcher passes the original `args` to `executeTool`, not
`validationResult.data`, so defaults never reach a handler this way). -/
structure ValidationResult where
  valid : Bool
  errors : List String
deriving DecidableEq, Repr

/-- JS `array.join(sep)`. -/
def joinWith (sep : String) : List String → String
  | [] => emptyStr
  | [x] => x
  | x :: xs => x ++ sep ++ joinWith sep xs

/-- Zod issue formatting of `validateToolInput`:
`err.path.join('.') + ': ' + err.message`. -/
def fmtIssue (i : Issue) : String := joinWith dotSep i.path ++ ": " ++ i.message

/-- Function `validateToolInput` of utils/validation.ts: no schema means
valid; otherwise collect all issues of `safeParse` and format each with
its dot-joined property path. -/
def validateToolInput (inputSchema : Option Schema) (input : JsonValue) : ValidationResult :=
  match inputSchema with
  | none => ⟨true, []⟩
  | some sch =>
    match validateValue sch input [] with
    | [] => ⟨true, []⟩
    | issues => ⟨false, issues.map fmtIssue⟩

/-! ## Error handler (utils/error-handler.ts) -/

/-- Stable error codes of the error taxonomy. -/
def typeErrorCode : String := "TYPE_ERROR"

def synErrorCode : String := "SYNTAX_ERROR"

def refErrorCode : String := "REFERENCE_ERROR"

def validationErrorCode : String := "VALIDATION_ERROR"

def internalErrorCode : String := "INTERNAL_ERROR"

def rateLimitExceededCode : String := "RATE_LIMIT_EXCEEDED"

/-- JS error class names inspected by `ErrorHandler.handleError`. -/
def errorClassName : String := "Error"

def typeErrorName : String := "TypeError"

def synErrorName : String := "SyntaxError"

def refErrorName : String := "ReferenceError"

def zodErrorName : String := "ZodError"

/-- Fixed messages of `ErrorHandler.handleError`. -/
def invalidTypeMsg : String := "Invalid input type"

def synBadMsg : String := "Invalid syntax in request"

def refBadMsg : String := "Reference error in processing"

def zodBadMsg : String := "Validation failed"

def defaultErrorMsg : String := "An unexpected error occurred"

def validationErrorsKey : String := "validationErrors"

/-- A thrown JS error as `handleError` discriminates it: either an
instance of the `PortfolioError` hierarchy (carrying code, status and
context) or a plain error with a class name and message. -/
inductive JsError where
  | plain (name message : String)
  | portfolio (message code : String) (statusCode : Nat) (context : List (String × String))

/-- Interface `ErrorDetails`.  Context values that are not strings in the
source (argument objects, error arrays) are rendered opaquely as strings;
only the keys and string values matter to the claims. -/
structure ErrorDetails where
  message : String
  code : String
  statusCode : Nat
  context : List (String × String)
deriving DecidableEq, Repr

/-- Method `ErrorHandler.handleError`: a `PortfolioError` keeps its own
code, status and context (merged with the call-site context); the
recognised built-in error classes map to fixed codes; everything else —
including every plain `Error` — becomes `INTERNAL_ERROR` with status 500,
with the empty message replaced by a default (`error.message || …`). -/
def handleError (e : JsError) (ctx : List (String × String)) : ErrorDetails :=
  match e with
  | .portfolio msg code status ectx => ⟨msg, code, status, ectx ++ ctx⟩
  | .plain n msg =>
    if n = typeErrorName then ⟨invalidTypeMsg, typeErrorCode, 400, ctx⟩
    else if n = synErrorName then ⟨synBadMsg, synErrorCode, 400, ctx⟩
    else if n = refErrorName then ⟨refBadMsg, refErrorCode, 500, ctx⟩
    else if n = zodErrorName then
      ⟨zodBadMsg, validationErrorCode, 400, ctx ++ [(validationErrorsKey, emptyStr)]⟩
    else ⟨if msg = emptyStr then defaultErrorMsg else msg, internalErrorCode, 500, ctx⟩

def resetTimeKey : String := "resetTime"

def rateLimitMsgHead : String := "Rate limit exceeded. Try again in "

def rateLimitMsgTail : String := " seconds."

/-- Message of the dispatcher's rate-limit rejection (and of the
`RateLimitError` class). -/
def rateLimitMsg (resetTime : Int) : String :=
  rateLimitMsgHead ++ toString resetTime ++ rateLimitMsgTail

/-- Class `RateLimitError` of error-handler.ts: code
`RATE_LIMIT_EXCEEDED`, status 429, context carrying `resetTime`.  It is
defined by the source but never thrown by the dispatcher. -/
def RateLimitError (resetTime : Int) : JsError :=
  .portfolio (rateLimitMsg resetTime) rateLimitExceededCode 429
    [(resetTimeKey, toString resetTime)]

/-! ## Registry and dispatch (index.ts, `PortfolioMCPServer.setupHandlers`) -/

/-- A registered tool: name plus parameter schema (handler execution lies
behind the validation gate and is not the subject of any claim). -/
structure Tool where
  name : String
  inputSchema : Option Schema

def contentTypeKey : String := "contentType"

def limitKey : String := "limit"

def timeRangeKey : String := "timeRange"

/-- Schema of the `get_popular_content` tool (analytics-tools.ts lines
220-242): `contentType` an enum of `projects`/`skills`/`pages` with
default `projects`, `limit` a number in [1, 20] with default 10,
`timeRange` an enum of the five range keywords with default `month`; no
property is required. -/
def popularContentSchema : Schema :=
  .sObject
    (.cons contentTypeKey (.sString (some [projectsKw, skillsKw, pagesKw]))
      (some (.str projectsKw))
      (.cons limitKey (.sNumber false (some 1) (some 20)) (some (.num 10))
        (.cons timeRangeKey (.sString (some [dayKw, weekKw, monthKw, yearKw, allKw]))
          (some (.str monthKw)) .nil)))
    []

/-- Schema accepting any object with no declared properties, standing in
for the registered schemas that no claim inspects. -/
def emptyObjectSchema : Schema := .sObject .nil []

/-- The tool registry assembled by `initializeTools` (the eighteen names
of portfolioTools, skillTools, projectTools, analyticsTools and
exportTools, in registration order).  Only the schema of
`get_popular_content` is spelled out; the remaining parameter schemas are
not inspected by any claim. -/
def serverTools : List Tool :=
  [⟨r"get_portfolio_overview", some emptyObjectSchema⟩,
   ⟨r"get_portfolio_stats", some emptyObjectSchema⟩,
   ⟨r"get_contact_info", some emptyObjectSchema⟩,
   ⟨r"get_achievements", some emptyObjectSchema⟩,
   ⟨r"get_skills", some emptyObjectSchema⟩,
   ⟨r"get_skill_by_id", some emptyObjectSchema⟩,
   ⟨r"filter_skills", some emptyObjectSchema⟩,
   ⟨r"get_skills_by_category", some emptyObjectSchema⟩,
   ⟨r"get_projects", some emptyObjectSchema⟩,
   ⟨r"get_project_by_id", some emptyObjectSchema⟩,
   ⟨r"filter_projects", some emptyObjectSchema⟩,
   ⟨r"get_featured_projects", some emptyObjectSchema⟩,
   ⟨r"track_event", some emptyObjectSchema⟩,
   ⟨r"get_analytics_stats", some emptyObjectSchema⟩,
   ⟨r"get_popular_content", some popularContentSchema⟩,
   ⟨r"export_portfolio", some emptyObjectSchema⟩,
   ⟨r"export_skills", some emptyObjectSchema⟩,
   ⟨r"export_projects", some emptyObjectSchema⟩]

def toolKey : String := "tool"

def argsKey : String := "args"

def timestampKey : String := "timestamp"

/-- Context object the dispatcher hands to `handleError`:
`{ tool: name, args, timestamp: new Date().toISOString() }`.  The argument
object and the ISO timestamp are rendered opaquely; the claims concern
only which keys are present. -/
def dispatchContext (name : String) (now : Int) : List (String × String) :=
  [(toolKey, name), (argsKey, emptyStr), (timestampKey, toString now)]

def unknownToolHead : String := "Unknown tool: "

/-- Message of the dispatcher's unknown-tool rejection. -/
def unknownToolMsg (name : String) : String := unknownToolHead ++ name

def commaSpace : String := ", "

def invalidInputHead : String := "Invalid input: "

/-- Message of the dispatcher's validation rejection:
`'Invalid input: ' + validationResult.errors.join(', ')`. -/
def invalidInputMsg (errors : List String) : String :=
  invalidInputHead ++ joinWith commaSpace errors

/-- Result of one dispatched call: either the call reached `executeTool`
(after passing the rate-limit, lookup and validation gates), or it failed
and the catch block produced the `ErrorDetails` of `handleError`. -/
inductive DispatchOutcome where
  | ok (toolName : String)
  | fail (details : ErrorDetails)
deriving DecidableEq, Repr

/-- The error envelope serialized by the catch block:
`{ success: false, error: handledError.message, code: handledError.code,
timestamp }` (the timestamp is fresh and not modelled). -/
structure ToolErrorEnvelope where
  success : Bool
  error : String
  code : String
deriving DecidableEq, Repr

def envelopeOf (d : ErrorDetails) : ToolErrorEnvelope := ⟨false, d.message, d.code⟩

/-- The `CallToolRequestSchema` handler of `setupHandlers`, in source
order: (1) rate-limit check — a disallowed call throws a plain
`Error(rateLimitMsg)`; (2) tool lookup — an unknown name throws a plain
`Error('Unknown tool: ' + name)`; (3) input validation — an invalid input
throws a plain `Error('Invalid input: ' + errors.join(', '))`; every
thrown error is normalized by `handleError` with the dispatcher's context.
The caller's `ip`/`userAgent` are the fields `generateKey` reads off the
request object.  Returns the outcome and the rate-limiter state after the
call. -/
def dispatch (cfg : RateLimitConfig) (tools : List Tool) (name : String)
    (args : JsonValue) (ip userAgent : Option String) (st : RateLimiterState)
    (now : Int) : DispatchOutcome × RateLimiterState :=
  let ctx := dispatchContext name now
  let rl := checkLimit cfg st ip userAgent now
  if rl.1.allowed = false then
    (.fail (handleError (.plain errorClassName (rateLimitMsg rl.1.resetTime)) ctx), rl.2)
  else
    match tools.find? (fun t => t.name == name) with
    | none => (.fail (handleError (.plain errorClassName (unknownToolMsg name)) ctx), rl.2)
    | some tool =>
      let vr := validateToolInput tool.inputSchema args
      if vr.valid = false then
        (.fail (handleError (.plain errorClassName (invalidInputMsg vr.errors)) ctx), rl.2)
      else
        (.ok name, rl.2)

theorem strAppend_data (a b : String) : (a ++ b).data = a.data ++ b.data := by
  cases a
  cases b
  rfl

theorem strAppend_data_ne_nil (a b : String) (h : a.data ≠ []) : (a ++ b).data ≠ [] := by
  rw [strAppend_data]
  intro hc
  exact h (List.append_eq_nil.mp hc).1

theorem strAppend_ne_empty_left (a b : String) (h : a.data ≠ []) : a ++ b ≠ emptyStr := by
  intro hc
  have hd : (a ++ b).data = [] := by
    rw [hc]
    rfl
  exact strAppend_data_ne_nil a b h hd

theorem rateLimitMsg_ne_empty (r : Int) : rateLimitMsg r ≠ emptyStr :=
  strAppend_ne_empty_left _ _ (strAppend_data_ne_nil _ _ (by decide))

theorem unknownToolMsg_ne_empty (n : String) : unknownToolMsg n ≠ emptyStr :=
  strAppend_ne_empty_left _ _ (by decide)

theorem invalidInputMsg_ne_empty (es : List String) : invalidInputMsg es ≠ emptyStr :=
  strAppend_ne_empty_left _ _ (by decide)

/-- On a plain `Error` with a nonempty message, `handleError` falls through
every recognised class and lands on the default branch. -/
theorem handleError_plain_default (msg : String) (ctx : List (String × String))
    (h : msg ≠ emptyStr) :
    handleError (.plain errorClassName msg) ctx = ⟨msg, internalErrorCode, 500, ctx⟩ := by
  have h1 : ¬(errorClassName = typeErrorName) := by decide
  have h2 : ¬(errorClassName = synErrorName) := by decide
  have h3 : ¬(errorClassName = refErrorName) := by decide
  have h4 : ¬(errorClassName = zodErrorName) := by decide
  simp [handleError, h1, h2, h3, h4, h]

theorem dispatchContext_keys (name : String) (now : Int) :
    (dispatchContext name now).map Prod.fst = [toolKey, argsKey, timestampKey] := rfl

/-! ## C2, C4, C5, C6: dispatch theorems -/

/-- The default rate-limit configuration (900000 ms window, 100 requests). -/
def okCfg : RateLimitConfig := ⟨900000, 100⟩

def getPopularContentName : String := "get_popular_content"

def getNonexistentName : String := "get_nonexistent"

/-- Caller identity of the dispatch examples. -/
def xIp : Option String := some (String.singleton 'X')

/-- A limiter state in which caller `X` has exhausted a 1-request budget:
one recorded timestamp at 950 ms, still inside the window at now = 1000. -/
def fullState : RateLimiterState :=
  [(ipKeyTag ++ String.singleton 'X', [⟨xIp, none, 950⟩])]

/-- A registered tool name for the rate-limit counterexample. -/
def getSkillsName : String := "get_skills"

/-- C2 (counterexample).  A denied call dispatched for the registered tool
`get_skills` produces the envelope of a plain `Error`: code
`INTERNAL_ERROR` with status 500 and a context whose keys are
`tool`/`args`/`timestamp` — not code `RATE_LIMIT_EXCEEDED` with status 429
and a `resetTime` context entry as the claim states (the `resetTime` value
appears only interpolated into the message text). -/
theorem dispatch_rate_limit_envelope_counterexample :
    (dispatch ⟨1000, 1⟩ serverTools getSkillsName (JsonValue.obj []) xIp none
        fullState 1000).1 =
      .fail ⟨rateLimitMsg 0, internalErrorCode, 500, dispatchContext getSkillsName 1000⟩ ∧
    internalErrorCode ≠ rateLimitExceededCode ∧
    ((dispatchContext getSkillsName 1000).map Prod.fst).contains resetTimeKey = false := by
  decide

/-- C2 (amended).  Every rate-limit denial yields the envelope of a plain
`Error`: message `rateLimitMsg resetTime` (the only place the reset time
appears), code `INTERNAL_ERROR`, status 500, and a context of exactly the
keys `tool`, `args`, `timestamp` — no `resetTime` entry.  The
`RateLimitError` class of error-handler.ts, which would carry code
`RATE_LIMIT_EXCEEDED`, status 429 and a `resetTime` context entry, is
never thrown by the dispatcher. -/
theorem dispatch_rate_limit_envelope_amended (cfg : RateLimitConfig) (tools : List Tool)
    (name : String) (args : JsonValue) (ip ua : Option String) (st : RateLimiterState)
    (now : Int) (h : (checkLimit cfg st ip ua now).1.allowed = false) :
    (dispatch cfg tools name args ip ua st now).1 =
      .fail ⟨rateLimitMsg (checkLimit cfg st ip ua now).1.resetTime, internalErrorCode, 500,
        dispatchContext name now⟩ ∧
    ((dispatchContext name now).map Prod.fst).contains resetTimeKey = false := by
  constructor
  · simp only [dispatch, h, if_pos]
    rw [handleError_plain_default _ _ (rateLimitMsg_ne_empty _)]
  · rw [dispatchContext_keys]
    decide

/-- Witness for C2: the exhausted caller of the counterexample state. -/
theorem dispatch_rate_limit_envelope_amended_witness :
    (dispatch ⟨1000, 1⟩ serverTools getPopularContentName (JsonValue.obj []) xIp none
        fullState 1000).1 =
      .fail ⟨rateLimitMsg (checkLimit ⟨1000, 1⟩ fullState xIp none 1000).1.resetTime,
        internalErrorCode, 500, dispatchContext getPopularContentName 1000⟩ ∧
    ((dispatchContext getPopularContentName 1000).map Prod.fst).contains resetTimeKey = false :=
  dispatch_rate_limit_envelope_amended ⟨1000, 1⟩ serverTools getPopularContentName
    (JsonValue.obj []) xIp none fullState 1000 (by decide)

/-- C4 (counterexample).  The name `get_nonexistent` is not registered,
yet dispatching it with the caller over budget yields the rate-limit
envelope, not the unknown-tool envelope: the rate-limit gate is decided
before descriptor lookup, so the lookup failure is not returned
"regardless of the caller's rate-limit state" as the claim states. -/
theorem dispatch_gate_order_counterexample :
    serverTools.find? (fun t => t.name == getNonexistentName) = none ∧
    (dispatch ⟨1000, 1⟩ serverTools getNonexistentName (JsonValue.obj []) xIp none
        fullState 1000).1 =
      .fail ⟨rateLimitMsg 0, internalErrorCode, 500, dispatchContext getNonexistentName 1000⟩ ∧
    rateLimitMsg 0 ≠ unknownToolMsg getNonexistentName := by
  refine ⟨rfl, by decide, by decide⟩

/-- C4 (amended).  The dispatcher's gates run in the order rate limit,
then lookup: a denied call yields the rate-limit envelope whatever the
name, and an unregistered name yields the unknown-tool envelope (code
`INTERNAL_ERROR`, status 500, not `UNKNOWN_OPERATION`/404) only when the
caller is within the rate limit. -/
theorem dispatch_gate_order_amended (cfg : RateLimitConfig) (tools : List Tool)
    (name : String) (args : JsonValue) (ip ua : Option String) (st : RateLimiterState)
    (now : Int) :
    ((checkLimit cfg st ip ua now).1.allowed = false →
       (dispatch cfg tools name args ip ua st now).1 =
         .fail ⟨rateLimitMsg (checkLimit cfg st ip ua now).1.resetTime, internalErrorCode,
           500, dispatchContext name now⟩) ∧
    ((checkLimit cfg st ip ua now).1.allowed = true →
       tools.find? (fun t => t.name == name) = none →
       (dispatch cfg tools name args ip ua st now).1 =
         .fail ⟨unknownToolMsg name, internalErrorCode, 500, dispatchContext name now⟩) := by
  constructor
  · intro h
    simp only [dispatch, h, if_pos]
    rw [handleError_plain_default _ _ (rateLimitMsg_ne_empty _)]
  · intro h hfind
    simp only [dispatch, h, hfind]
    rw [handleError_plain_default _ _ (unknownToolMsg_ne_empty _)]
    simp

/-- Witness for C4: within budget, dispatching `get_nonexistent` on the
real registry yields the unknown-tool envelope. -/
theorem dispatch_gate_order_amended_witness :
    (dispatch okCfg serverTools getNonexistentName (JsonValue.obj []) none none [] 0).1 =
      .fail ⟨unknownToolMsg getNonexistentName, internalErrorCode, 500,
        dispatchContext getNonexistentName 0⟩ :=
  (dispatch_gate_order_amended okCfg serverTools getNonexistentName
    (JsonValue.obj []) none none [] 0).2 (by decide) rfl

/-- The code the claim expects for an unknown operation; it appears
nowhere in the source. -/
def unknownOperationCode : String := "UNKNOWN_OPERATION"

/-- The literal envelope message of the unknown-tool scenario. -/
def unknownNonexistentMsg : String := "Unknown tool: get_nonexistent"

/-- C5 (counterexample).  Dispatching the unregistered name
`get_nonexistent` (within the rate limit, on the real registry) produces
an envelope whose code is `INTERNAL_ERROR`, not `UNKNOWN_OPERATION` as the
claim states. -/
theorem dispatch_unknown_tool_counterexample :
    (dispatch okCfg serverTools getNonexistentName (JsonValue.obj []) none none [] 0).1 =
      .fail ⟨unknownNonexistentMsg, internalErrorCode, 500,
        dispatchContext getNonexistentName 0⟩ ∧
    internalErrorCode ≠ unknownOperationCode := by
  decide

/-- C5 (amended).  The scenario envelope has `success = false` and error
message `Unknown tool: get_nonexistent` as claimed, but its code is
`INTERNAL_ERROR` (the dispatcher throws a plain `Error`, which
`handleError` classifies as the generic internal error). -/
theorem dispatch_unknown_tool_amended :
    (dispatch okCfg serverTools getNonexistentName (JsonValue.obj []) none none [] 0).1 =
      .fail ⟨unknownNonexistentMsg, internalErrorCode, 500,
        dispatchContext getNonexistentName 0⟩ ∧
    unknownToolMsg getNonexistentName = unknownNonexistentMsg ∧
    envelopeOf ⟨unknownNonexistentMsg, internalErrorCode, 500,
        dispatchContext getNonexistentName 0⟩ =
      ⟨false, unknownNonexistentMsg, internalErrorCode⟩ := by
  decide

/-- Invalid arguments for `get_popular_content`: `limit = 150` violates the
maximum of 20. -/
def c6Args : JsonValue := .obj [(limitKey, .num 150)]

def bogusStr : String := "bogus"

/-- Doubly invalid arguments: a `contentType` outside the enum and a
`limit` above the maximum. -/
def c6MultiArgs : JsonValue := .obj [(contentTypeKey, .str bogusStr), (limitKey, .num 150)]

/-- C6 (counterexample).  A call whose arguments fail schema validation
(`get_popular_content` with `limit = 150`) produces an envelope with code
`INTERNAL_ERROR` and status 500, not `VALIDATION_ERROR` and status 400 as
the claim states. -/
theorem dispatch_validation_envelope_counterexample :
    (dispatch okCfg serverTools getPopularContentName c6Args none none [] 0).1 =
      .fail ⟨invalidInputMsg [fmtIssue ⟨[limitKey], msgNumMax 20⟩], internalErrorCode, 500,
        dispatchContext getPopularContentName 0⟩ ∧
    internalErrorCode ≠ validationErrorCode := by
  decide

/-- C6 (amended).  On validation failure the dispatcher returns the
envelope of a plain `Error` — code `INTERNAL_ERROR`, status 500, not
`VALIDATION_ERROR`/400 — but its message does list every violated
constraint, comma-joined, each formatted by `fmtIssue` with its dot-joined
property path; with both a bad `contentType` and a bad `limit`, both
violations are reported. -/
theorem dispatch_validation_envelope_amended (cfg : RateLimitConfig) (tools : List Tool)
    (name : String) (args : JsonValue) (ip ua : Option String) (st : RateLimiterState)
    (now : Int) (tool : Tool)
    (hok : (checkLimit cfg st ip ua now).1.allowed = true)
    (hfind : tools.find? (fun t => t.name == name) = some tool)
    (hbad : (validateToolInput tool.inputSchema args).valid = false) :
    (dispatch cfg tools name args ip ua st now).1 =
      .fail ⟨invalidInputMsg (validateToolInput tool.inputSchema args).errors,
        internalErrorCode, 500, dispatchContext name now⟩ ∧
    validateToolInput (some popularContentSchema) c6MultiArgs =
      ⟨false, [fmtIssue ⟨[contentTypeKey], msgInvalidEnum⟩,
        fmtIssue ⟨[limitKey], msgNumMax 20⟩]⟩ := by
  constructor
  · simp only [dispatch, hok, hfind, hbad]
    simp only [Bool.true_eq_false, if_false, if_pos]
    rw [handleError_plain_default _ _ (invalidInputMsg_ne_empty _)]
  · decide

/-- Witness for C6: the hypotheses hold for `get_popular_content` with
`limit = 150` on the real registry. -/
theorem dispatch_validation_envelope_amended_witness :
    (dispatch okCfg serverTools getPopularContentName c6Args none none [] 0).1 =
      .fail ⟨invalidInputMsg
        (validateToolInput (some popularContentSchema) c6Args).errors,
        internalErrorCode, 500, dispatchContext getPopularContentName 0⟩ :=
  (dispatch_validation_envelope_amended okCfg serverTools getPopularContentName c6Args
    none none [] 0 ⟨getPopularContentName, some popularContentSchema⟩
    (by decide) rfl (by decide)).1

/-! ## Export formatting (export-tools.ts)

The entity structures carry the fields the embedded export functions read. -/

structure Skill where
  name : String
  category : String
  description : String
  level : String
  proficiency : Nat
deriving DecidableEq, Repr

structure Project where
  title : String
  category : String
  shortDescription : String
  description : String
  status : String
  year : Nat
  technologies : List String
  liveUrl : Option String
deriving DecidableEq, Repr

structure ContactInfo where
  email : String
  phone : Option String
  location : String
  website : String
deriving DecidableEq, Repr

/-- The portfolio dataset (`portfolioData`) as the export tools read it. -/
structure Portfolio where
  title : String
  description : String
  contact : ContactInfo
  skills : List Skill
  projects : List Project
deriving DecidableEq, Repr

def dq : String := "\""

def commaStr : String := ","

def nlStr : String := "\n"

/-- CSV field quoting as the source performs it: wrap in double quotes
without escaping embedded quotes (template literal `"${value}"`). -/
def quoteField (s : String) : String := dq ++ s ++ dq

def skillWord : String := "Skill"

def projectWord : String := "Project"

def csvHeader : String := "Type,Name,Category,Description,Year,Status"

/-- JS `rows.join('\n')`. -/
def joinLines : List String → String
  | [] => emptyStr
  | [r] => r
  | r :: rs => r ++ nlStr ++ joinLines rs

/-- One skill row of `generateCSVExport`:
`['Skill', `"${name}"`, category, `"${description}"`, '', level].join(',')`
— only name and description are quoted, and the Year field is empty. -/
def skillCSVRow (s : Skill) : String :=
  skillWord ++ commaStr ++ quoteField s.name ++ commaStr ++ s.category ++ commaStr ++
    quoteField s.description ++ commaStr ++ commaStr ++ s.level

/-- One project row of `generateCSVExport`:
`['Project', `"${title}"`, category, `"${shortDescription}"`, year, status].join(',')`. -/
def projectCSVRow (p : Project) : String :=
  projectWord ++ commaStr ++ quoteField p.title ++ commaStr ++ p.category ++ commaStr ++
    quoteField p.shortDescription ++ commaStr ++ toString p.year ++ commaStr ++ p.status

/-- Function `generateCSVExport`: a header row, then one row per skill and
per project, joined by newlines. -/
def generateCSVExport (data : Portfolio) : String :=
  joinLines (csvHeader ::
    (data.skills.map skillCSVRow ++ data.projects.map projectCSVRow))

/-- Fragments of the `generateXMLExport` template literal, with its exact
whitespace. -/
def xmlHeader : String := "<?xml version=\"1.0\" encoding=\"UTF-8\"?>\n<portfolio>\n  <title>"

def xmlAfterTitle : String := "</title>\n  <description>"

def xmlAfterDesc : String := "</description>\n  <skills>\n    "

def xmlBetween : String := "\n  </skills>\n  <projects>\n    "

def xmlFooter : String := "\n  </projects>\n</portfolio>"

def xmlSkillOpen : String := "\n    <skill>\n      <name>"

def xmlSkillAfterName : String := "</name>\n      <category>"

def xmlSkillAfterCat : String := "</category>\n      <level>"

def xmlSkillAfterLevel : String := "</level>\n      <proficiency>"

def xmlSkillAfterProf : String := "</proficiency>\n      <description>"

def xmlSkillClose : String := "</description>\n    </skill>"

/-- One skill element of `generateXMLExport`; every field is interpolated
verbatim, with no character escaping. -/
def skillXml (s : Skill) : String :=
  xmlSkillOpen ++ s.name ++ xmlSkillAfterName ++ s.category ++ xmlSkillAfterCat ++
    s.level ++ xmlSkillAfterLevel ++ toString s.proficiency ++ xmlSkillAfterProf ++
    s.description ++ xmlSkillClose

def xmlProjOpen : String := "\n    <project>\n      <title>"

def xmlProjAfterTitle : String := "</title>\n      <category>"

def xmlProjAfterCat : String := "</category>\n      <year>"

def xmlProjAfterYear : String := "</year>\n      <description>"

def xmlProjAfterDesc : String := "</description>\n      <status>"

def xmlProjClose : String := "</status>\n    </project>"

/-- One project element of `generateXMLExport`. -/
def projectXml (p : Project) : String :=
  xmlProjOpen ++ p.title ++ xmlProjAfterTitle ++ p.category ++ xmlProjAfterCat ++
    toString p.year ++ xmlProjAfterYear ++ p.description ++ xmlProjAfterDesc ++
    p.status ++ xmlProjClose

/-- JS `array.join('')`. -/
def strConcat : List String → String
  | [] => emptyStr
  | x :: xs => x ++ strConcat xs

/-- Function `generateXMLExport`. -/
def generateXMLExport (data : Portfolio) : String :=
  xmlHeader ++ data.title ++ xmlAfterTitle ++ data.description ++ xmlAfterDesc ++
    strConcat (data.skills.map skillXml) ++ xmlBetween ++
    strConcat (data.projects.map projectXml) ++ xmlFooter

/-- The document produced by one `export_portfolio` call, defunctionalized
for the formats whose byte content no claim inspects: the JSON and
Markdown constructors record the serializer applied and the exact data it
renders; the CSV and XML constructors carry the embedded generators'
output. -/
inductive ExportDoc where
  | jsonDoc (data : Portfolio) (compress : Bool)
  | markdownDoc (data : Portfolio)
  | csvDoc (content : String)
  | xmlDoc (content : String)
deriving DecidableEq, Repr

def exportFailedMsg : String := "Failed to export portfolio"

/-- Outcome of the `export_portfolio` handler: the document with its
format label, or the catch block's failure response. -/
inductive ExportOutcome where
  | ok (doc : ExportDoc) (format : String)
  | fail (error : String)
deriving DecidableEq, Repr

def jsonKw : String := "json"

def markdownKw : String := "markdown"

def csvKw : String := "csv"

def xmlKw : String := "xml"

/-- The `export_portfolio` handler.  In the source,
`let exportData = { ...portfolioData }` copies only the top-level property
references, so `exportData.contact` is the same object as
`portfolioData.contact`; when `includePrivate` is falsy and a phone is
present, `delete exportData.contact.phone` therefore removes `phone` from
the shared contact object.  The embedding threads the dataset explicitly:
the second component is the dataset after the call, and the document is
rendered from the post-delete data.  An unsupported format throws after
the delete has already happened and is caught into the failure response. -/
def exportPortfolio (format : String) (includePrivate compress : Bool)
    (store : Portfolio) : ExportOutcome × Portfolio :=
  let store' :=
    if includePrivate = false && store.contact.phone.isSome then
      {store with contact := {store.contact with phone := none}}
    else store
  if format = jsonKw then (.ok (.jsonDoc store' compress) format, store')
  else if format = markdownKw then (.ok (.markdownDoc store') format, store')
  else if format = csvKw then (.ok (.csvDoc (generateCSVExport store')) format, store')
  else if format = xmlKw then (.ok (.xmlDoc (generateXMLExport store')) format, store')
  else (.fail exportFailedMsg, store')

/-! Claim-side escaping: what the claim says values containing delimiter
or escape characters should look like in the output. -/

/-- Proper CSV escaping of a quoted field: embedded double quotes doubled. -/
def csvEscapeChars : List Char → List Char
  | [] => []
  | c :: rest =>
    if c = '"' then '"' :: '"' :: csvEscapeChars rest else c :: csvEscapeChars rest

def csvEscapedField (s : String) : String :=
  dq ++ String.mk (csvEscapeChars s.data) ++ dq

def ampEsc : String := "&amp;"

def ltEsc : String := "&lt;"

def gtEsc : String := "&gt;"

/-- Proper XML character escaping of element content. -/
def xmlEscapeChars : List Char → List Char
  | [] => []
  | c :: rest =>
    if c = '&' then ampEsc.data ++ xmlEscapeChars rest
    else if c = '<' then ltEsc.data ++ xmlEscapeChars rest
    else if c = '>' then gtEsc.data ++ xmlEscapeChars rest
    else c :: xmlEscapeChars rest

def xmlEscaped (s : String) : String := String.mk (xmlEscapeChars s.data)

/-- Boolean prefix test on character sequences. -/
def listPrefixB : List Char → List Char → Bool
  | [], _ => true
  | _ :: _, [] => false
  | a :: as, b :: bs => a == b && listPrefixB as bs

/-- Boolean substring test on character sequences. -/
def listInfixB (p : List Char) : List Char → Bool
  | [] => p.isEmpty
  | c :: rest => listPrefixB p (c :: rest) || listInfixB p rest

/-- Substring test: `pat` occurs contiguously in `s`. -/
def strContainsB (s pat : String) : Bool := listInfixB pat.data s.data

/-- Occurrence of `p` as a contiguous segment of `l`. -/
def hasSub (l p : List Char) : Prop := ∃ pre suf, l = pre ++ p ++ suf

/-! ## C9, C10: export theorems -/

theorem listPrefixB_self_append (p t : List Char) : listPrefixB p (p ++ t) = true := by
  induction p with
  | nil => rfl
  | cons a as ih => simp [listPrefixB, ih]

theorem listInfixB_nil_pat (l : List Char) : listInfixB [] l = true := by
  induction l with
  | nil => rfl
  | cons c cs ih => simp [listInfixB, listPrefixB]

theorem listInfixB_of_append (p pre suf : List Char) :
    listInfixB p (pre ++ p ++ suf) = true := by
  induction pre with
  | nil =>
    cases p with
    | nil => simpa using listInfixB_nil_pat suf
    | cons a as =>
      have h := listPrefixB_self_append (a :: as) suf
      rw [List.cons_append] at h
      simp [listInfixB, h]
  | cons c cs ih =>
    have hshape : (c :: cs) ++ p ++ suf = c :: (cs ++ p ++ suf) := by simp
    rw [hshape, listInfixB, ih, Bool.or_true]

theorem listInfixB_of_hasSub {l p : List Char} (h : hasSub l p) : listInfixB p l = true := by
  obtain ⟨pre, suf, rfl⟩ := h
  exact listInfixB_of_append p pre suf

theorem hasSub_trans {l m p : List Char} (h₁ : hasSub l m) (h₂ : hasSub m p) : hasSub l p := by
  obtain ⟨a, b, rfl⟩ := h₁
  obtain ⟨c, d, rfl⟩ := h₂
  exact ⟨a ++ c, d ++ b, by simp [List.append_assoc]⟩

theorem hasSub_joinLines {r : String} {rs : List String} (h : r ∈ rs) :
    hasSub (joinLines rs).data r.data := by
  induction rs with
  | nil => cases h
  | cons x xs ih =>
    rcases List.mem_cons.mp h with rfl | hmem
    · cases xs with
      | nil => exact ⟨[], [], by simp [joinLines]⟩
      | cons y ys =>
        exact ⟨[], (nlStr ++ joinLines (y :: ys)).data, by
          simp [joinLines, strAppend_data, List.append_assoc]⟩
    · cases xs with
      | nil => cases hmem
      | cons y ys =>
        obtain ⟨pre, suf, hps⟩ := ih hmem
        exact ⟨(x ++ nlStr).data ++ pre, suf, by
          simp [joinLines, strAppend_data, hps, List.append_assoc]⟩

theorem hasSub_strConcat {r : String} {rs : List String} (h : r ∈ rs) :
    hasSub (strConcat rs).data r.data := by
  induction rs with
  | nil => cases h
  | cons x xs ih =>
    rcases List.mem_cons.mp h with rfl | hmem
    · exact ⟨[], (strConcat xs).data, by simp [strConcat, strAppend_data]⟩
    · obtain ⟨pre, suf, hps⟩ := ih hmem
      exact ⟨x.data ++ pre, suf, by simp [strConcat, strAppend_data, hps, List.append_assoc]⟩

theorem hasSub_skillCSVRow (s : Skill) :
    hasSub (skillCSVRow s).data (quoteField s.name).data :=
  ⟨(skillWord ++ commaStr).data,
   (commaStr ++ s.category ++ commaStr ++ quoteField s.description ++ commaStr ++
     commaStr ++ s.level).data,
   by simp [skillCSVRow, strAppend_data, List.append_assoc]⟩

theorem hasSub_projectCSVRow (p : Project) :
    hasSub (projectCSVRow p).data (quoteField p.title).data :=
  ⟨(projectWord ++ commaStr).data,
   (commaStr ++ p.category ++ commaStr ++ quoteField p.shortDescription ++ commaStr ++
     toString p.year ++ commaStr ++ p.status).data,
   by simp [projectCSVRow, strAppend_data, List.append_assoc]⟩

theorem hasSub_skillXml (s : Skill) : hasSub (skillXml s).data s.name.data :=
  ⟨xmlSkillOpen.data,
   (xmlSkillAfterName ++ s.category ++ xmlSkillAfterCat ++ s.level ++ xmlSkillAfterLevel ++
     toString s.proficiency ++ xmlSkillAfterProf ++ s.description ++ xmlSkillClose).data,
   by simp [skillXml, strAppend_data, List.append_assoc]⟩

theorem hasSub_projectXml (p : Project) : hasSub (projectXml p).data p.title.data :=
  ⟨xmlProjOpen.data,
   (xmlProjAfterTitle ++ p.category ++ xmlProjAfterCat ++ toString p.year ++
     xmlProjAfterYear ++ p.description ++ xmlProjAfterDesc ++ p.status ++
     xmlProjClose).data,
   by simp [projectXml, strAppend_data, List.append_assoc]⟩

theorem hasSub_xml_skills (data : Portfolio) :
    hasSub (generateXMLExport data).data
      (strConcat (data.skills.map skillXml)).data :=
  ⟨(xmlHeader ++ data.title ++ xmlAfterTitle ++ data.description ++ xmlAfterDesc).data,
   (xmlBetween ++ strConcat (data.projects.map projectXml) ++ xmlFooter).data,
   by simp [generateXMLExport, strAppend_data, List.append_assoc]⟩

theorem hasSub_xml_projects (data : Portfolio) :
    hasSub (generateXMLExport data).data
      (strConcat (data.projects.map projectXml)).data :=
  ⟨(xmlHeader ++ data.title ++ xmlAfterTitle ++ data.description ++ xmlAfterDesc ++
     strConcat (data.skills.map skillXml) ++ xmlBetween).data,
   xmlFooter.data,
   by simp [generateXMLExport, strAppend_data, List.append_assoc]⟩

theorem strAppend_empty (a : String) : a ++ emptyStr = a := by
  cases a with
  | mk d =>
    show String.mk (d ++ ([] : List Char)) = String.mk d
    rw [List.append_nil]

/-- The XML document `generateXMLExport` produces for a dataset with no
skills and no projects: well-formed, with empty skills and projects
sections. -/
def xmlNoEntriesDoc (t d : String) : String :=
  xmlHeader ++ t ++ xmlAfterTitle ++ d ++ xmlAfterDesc ++ xmlBetween ++ xmlFooter

/-- Tiny concrete dataset fields. -/
def titleStr : String := "T"

def descStr : String := "D"

def emailStr : String := "e@x"

def locStr : String := "L"

def siteStr : String := "W"

def catStr : String := "design"

def lvlStr : String := "expert"

def sDescStr : String := "d"

def c9Phone : String := "555-0100"

def c9Contact : ContactInfo := ⟨emailStr, some c9Phone, locStr, siteStr⟩

/-- A dataset whose contact has a phone number on file. -/
def c9Store : Portfolio := ⟨titleStr, descStr, c9Contact, [], []⟩

/-- C9 (code bug).  An `export_portfolio` call with default arguments
(`includePrivate` false) on a dataset whose contact has a phone deletes
the phone from the underlying dataset: the shallow spread
`{ ...portfolioData }` shares the `contact` object, so
`delete exportData.contact.phone` mutates the source.  The dataset after
the call differs from the dataset before it. -/
theorem exportPortfolio_mutates_contact_phone :
    c9Store.contact.phone = some c9Phone ∧
    (exportPortfolio jsonKw false false c9Store).2.contact.phone = none ∧
    (exportPortfolio jsonKw false false c9Store).2 ≠ c9Store := by
  decide

/-- A field value containing the CSV escape character (a double quote). -/
def badName : String := "He said \"hi\""

/-- A field value containing an XML delimiter. -/
def ltName : String := "a<b"

def tinyContact : ContactInfo := ⟨emailStr, none, locStr, siteStr⟩

/-- Dataset with one skill whose name embeds a double quote. -/
def c10CsvStore : Portfolio :=
  ⟨titleStr, descStr, tinyContact, [⟨badName, catStr, sDescStr, lvlStr, 50⟩], []⟩

/-- Dataset with one skill whose name embeds an angle bracket. -/
def c10XmlStore : Portfolio :=
  ⟨titleStr, descStr, tinyContact, [⟨ltName, catStr, sDescStr, lvlStr, 50⟩], []⟩

/-- C10 (counterexample).  A skill name containing a double quote does not
appear CSV-escaped (doubled quotes inside the quoted field) in
`generateCSVExport` — it appears wrapped in quotes verbatim, yielding a
malformed record — and a skill name containing `<` does not appear
XML-escaped (`&lt;`) in `generateXMLExport` — it appears raw. -/
theorem export_escaping_counterexample :
    strContainsB (generateCSVExport c10CsvStore) (csvEscapedField badName) = false ∧
    strContainsB (generateCSVExport c10CsvStore) (quoteField badName) = true ∧
    strContainsB (generateXMLExport c10XmlStore) (xmlEscaped ltName) = false ∧
    strContainsB (generateXMLExport c10XmlStore) ltName = true := by
  decide

/-- C10 (amended).  Each embedded format function is total: an empty
dataset yields the bare CSV header row and a well-formed XML document with
empty skills and projects sections; and no field value is dropped — every
skill name and project title appears in the CSV output wrapped in double
quotes, and verbatim in the XML output — but the
values are interpolated with no escaping (embedded quotes are not doubled,
XML special characters are not entity-encoded), so values containing the
format's delimiter or escape characters yield malformed documents. -/
theorem export_formats_amended :
    (∀ (t d : String) (c : ContactInfo), generateCSVExport ⟨t, d, c, [], []⟩ = csvHeader) ∧
    (∀ (t d : String) (c : ContactInfo),
       generateXMLExport ⟨t, d, c, [], []⟩ = xmlNoEntriesDoc t d) ∧
    (∀ (data : Portfolio) (s : Skill), s ∈ data.skills →
       strContainsB (generateCSVExport data) (quoteField s.name) = true) ∧
    (∀ (data : Portfolio) (p : Project), p ∈ data.projects →
       strContainsB (generateCSVExport data) (quoteField p.title) = true) ∧
    (∀ (data : Portfolio) (s : Skill), s ∈ data.skills →
       strContainsB (generateXMLExport data) s.name = true) ∧
    (∀ (data : Portfolio) (p : Project), p ∈ data.projects →
       strContainsB (generateXMLExport data) p.title = true) := by
  refine ⟨fun t d c => by simp [generateCSVExport, joinLines],
    fun t d c => by simp [generateXMLExport, xmlNoEntriesDoc, strConcat, strAppend_empty],
    fun data s h => ?_, fun data p h => ?_, fun data s h => ?_, fun data p h => ?_⟩
  · have hrow : skillCSVRow s ∈ csvHeader ::
        (data.skills.map skillCSVRow ++ data.projects.map projectCSVRow) :=
      List.mem_cons_of_mem _ (List.mem_append_left _ (List.mem_map_of_mem skillCSVRow h))
    exact listInfixB_of_hasSub
      (hasSub_trans (hasSub_joinLines hrow) (hasSub_skillCSVRow s))
  · have hrow : projectCSVRow p ∈ csvHeader ::
        (data.skills.map skillCSVRow ++ data.projects.map projectCSVRow) :=
      List.mem_cons_of_mem _ (List.mem_append_right _ (List.mem_map_of_mem projectCSVRow h))
    exact listInfixB_of_hasSub
      (hasSub_trans (hasSub_joinLines hrow) (hasSub_projectCSVRow p))
  · exact listInfixB_of_hasSub
      (hasSub_trans (hasSub_xml_skills data)
        (hasSub_trans (hasSub_strConcat (List.mem_map_of_mem skillXml h))
          (hasSub_skillXml s)))
  · exact listInfixB_of_hasSub
      (hasSub_trans (hasSub_xml_projects data)
        (hasSub_trans (hasSub_strConcat (List.mem_map_of_mem projectXml h))
          (hasSub_projectXml p)))

/-- A project whose title embeds an angle bracket, for the XML witness. -/
def c10Project : Project := ⟨ltName, catStr, sDescStr, sDescStr, lvlStr, 2024, [], none⟩

/-- Dataset with one project whose title embeds an angle bracket. -/
def c10XmlProjStore : Portfolio := ⟨titleStr, descStr, tinyContact, [], [c10Project]⟩

/-- Witness for C10: the quoted (unescaped) bad name occurs in the CSV
output of the concrete dataset, the raw skill name in the XML output, and
the raw project title in the XML output of the project dataset. -/
theorem export_formats_amended_witness :
    strContainsB (generateCSVExport c10CsvStore)
      (quoteField (Skill.mk badName catStr sDescStr lvlStr 50).name) = true ∧
    strContainsB (generateXMLExport c10XmlStore)
      (Skill.mk ltName catStr sDescStr lvlStr 50).name = true ∧
    strContainsB (generateXMLExport c10XmlProjStore) c10Project.title = true :=
  ⟨export_formats_amended.2.2.1 c10CsvStore ⟨badName, catStr, sDescStr, lvlStr, 50⟩ (by decide),
   export_formats_amended.2.2.2.2.1 c10XmlStore ⟨ltName, catStr, sDescStr, lvlStr, 50⟩
     (by decide),
   export_formats_amended.2.2.2.2.2 c10XmlProjStore c10Project (by decide)⟩

end PortfolioServer
